import Mathlib

/-!
Shallow embedding of src/src/event_loop.rs (an epoll-based single-reactor
event loop) and proofs about it.

Modelling conventions:
- File descriptors (libc::c_int) are `Int`; the u64 epoll user-data field is
  a `Nat` (< 2^64); the casts `fd as u64` and `data as libc::c_int` are
  modelled bit-exactly by `toU64` / `toCInt`.
- Pending calls (boxed closures) are opaque and identified by `Nat` ids;
  registered callbacks (EpollHandlerData.on_event) are opaque `Nat` ids
  stored in the fd_data map.
- Side effects (lock operations, queue pops, invoking a call, reading or
  writing the wakeup eventfd, invoking a registered callback) are recorded
  as an explicit list of `Act`s, in program order.
- Kernel behaviour (the results of epoll_create, eventfd, epoll_ctl,
  epoll_wait, and write) is an oracle supplied as input, since the kernel is
  outside the program.
-/

/-- Errno values distinguished by the source: EINTR (epoll_wait interrupted),
EAGAIN (eventfd counter saturated), and everything else. -/
inductive Errno
  | EINTR
  | EAGAIN
  | other (n : Nat)
deriving DecidableEq, Repr

/-- One entry of the array filled by epoll_wait: the readiness bitmask
(events) and the 64-bit user data registered with epoll_ctl. -/
structure EpollEvent where
  events : Nat
  data : Nat
deriving DecidableEq, Repr

/-- The Rust cast `fd as u64` for fd : libc::c_int (i32 sign-extended,
then reinterpreted as u64). -/
def toU64 (fd : Int) : Nat :=
  (fd % ((2 : Int) ^ 64)).toNat

/-- The Rust cast `event.data as libc::c_int` (u64 truncated to the low 32
bits, reinterpreted as i32). -/
def toCInt (data : Nat) : Int :=
  let m : Nat := data % 2 ^ 32
  if m < 2 ^ 31 then (m : Int) else (m : Int) - 2 ^ 32

/-- Observable side effects of the reactor, in program order. -/
inductive Act
  | lockAcquire
  | lockRelease
  | popCall (c : Nat)
  | invokeCall (c : Nat)
  | drainRead
  | invokeCallback (fd : Int) (kind : Nat)
  | wakeupWrite
deriving DecidableEq, Repr

/-- The state of EpollEventLoop: the epoll fd, the fd_data map from
descriptor to its handler, the wakeup eventfd, the stop flag, and the
pending_calls deque (front of the list = front of the deque). -/
structure Reactor where
  epoll_fd : Int
  fd_data : List (Int × Nat)
  wakeup_fd : Int
  stop : Bool
  pending_calls : List Nat
deriving DecidableEq, Repr

/-- EpollEventLoop::handle_wakeup_fd: loop \x7b lock; pop_front; if Some,
unlock and invoke the call outside the lock, repeat; if None, read the
wakeup eventfd (drain) and break, the lock guard dropping at scope exit. -/
def handle_wakeup_fd : List Nat → List Act
  | [] => [Act.lockAcquire, Act.drainRead, Act.lockRelease]
  | c :: rest =>
      Act.lockAcquire :: Act.popCall c :: Act.lockRelease ::
        Act.invokeCall c :: handle_wakeup_fd rest

/-- EpollEventLoop::call: lock the pending_calls mutex, push_back the boxed
closure, then signal the wakeup eventfd. Returns the new queue contents. -/
def call (q : List Nat) (c : Nat) : List Nat :=
  q ++ [c]

/-- The calls actually invoked in a trace, in order. -/
def invokedCalls (acts : List Act) : List Nat :=
  acts.filterMap fun a =>
    match a with
    | Act.invokeCall c => some c
    | _ => none

/-- The registered-callback invocations in a trace, in order. -/
def callbackInvocations (acts : List Act) : List (Int × Nat) :=
  acts.filterMap fun a =>
    match a with
    | Act.invokeCallback fd kind => some (fd, kind)
    | _ => none

/-- Checks that every invokeCall in the trace happens while the pending_calls
lock is not held; the Bool argument is whether the lock is currently held. -/
def invokesOutsideLock : List Act → Bool → Bool
  | [], _ => true
  | Act.lockAcquire :: rest, _ => invokesOutsideLock rest true
  | Act.lockRelease :: rest, _ => invokesOutsideLock rest false
  | Act.invokeCall _ :: rest, held => !held && invokesOutsideLock rest held
  | _ :: rest, held => invokesOutsideLock rest held

/-- The trace of one pass of the handle_wakeup_fd loop that pops a call:
lock, pop one from the front, unlock, invoke outside the lock. -/
def perItemTrace (c : Nat) : List Act :=
  [Act.lockAcquire, Act.popCall c, Act.lockRelease, Act.invokeCall c]

/-- The trace of the final pass of the handle_wakeup_fd loop, when the queue
is observed empty: drain the wakeup eventfd and stop. -/
def emptyQueueTrace : List Act :=
  [Act.lockAcquire, Act.drainRead, Act.lockRelease]

/-- Decidable equality for Except, needed by the structures below that carry
syscall outcomes. -/
instance exceptDecEq {e a : Type} [DecidableEq e] [DecidableEq a] :
    DecidableEq (Except e a) := fun x y =>
  match x, y with
  | Except.ok v, Except.ok w =>
      if h : v = w then isTrue (by rw [h])
      else isFalse (by intro hh; cases hh; exact h rfl)
  | Except.ok _, Except.error _ => isFalse (by intro hh; cases hh)
  | Except.error _, Except.ok _ => isFalse (by intro hh; cases hh)
  | Except.error u, Except.error w =>
      if h : u = w then isTrue (by rw [h])
      else isFalse (by intro hh; cases hh; exact h rfl)

/-- The capacity of the stack array of EpollEvents handed to epoll_wait
(`let mut events: [nix::sys::epoll::EpollEvent; 16]`). -/
def eventsBufferSize : Nat := 16

/-- The timeout argument the source passes to epoll_wait in single_loop
(`nix::sys::epoll::epoll_wait(self.epoll_fd.fd, &mut events, 0)`). -/
def epollWaitTimeoutArg : Int := 0

/-- Behaviour of epoll_wait as a function of its timeout argument, per the
epoll contract: 0 returns immediately even when no descriptor is ready, a
negative timeout blocks until an event arrives, a positive one waits at most
that many milliseconds. -/
inductive WaitBehavior
  | returnsImmediately
  | blocksUntilEvent
  | boundedWait (ms : Int)
deriving DecidableEq, Repr

/-- The epoll timeout contract. -/
def epollTimeoutSemantics (t : Int) : WaitBehavior :=
  if t = 0 then WaitBehavior.returnsImmediately
  else if t < 0 then WaitBehavior.blocksUntilEvent
  else WaitBehavior.boundedWait t

/-- The kernel fills at most eventsBufferSize entries of the events array;
epoll_wait returns that many, deferring the rest of the ready list. -/
def epollWaitFill (ready : List EpollEvent) : List EpollEvent :=
  ready.take eventsBufferSize

/-- The panic message in single_loop for a non-EINTR epoll_wait failure. -/
def epollWaitPanicMsg : String := "Unknown error after epoll_wait."

/-- Result of one call to single_loop: either the loop body completed
(returning the updated state and the side effects performed, in order), or
it panicked. -/
inductive LoopResult
  | ok (r : Reactor) (acts : List Act)
  | panicked (msg : String)
deriving DecidableEq, Repr

/-- The per-event body of the dispatch for-loop in single_loop: compute
fd = event.data as c_int; if it equals wakeup_fd, run handle_wakeup_fd
(which empties the pending_calls queue); otherwise the source's else branch
is empty, so nothing happens. -/
def processEvent (r : Reactor) (ev : EpollEvent) : Reactor × List Act :=
  let fd : Int := toCInt ev.data
  if fd = r.wakeup_fd then
    ({ r with pending_calls := [] }, handle_wakeup_fd r.pending_calls)
  else
    (r, [])

/-- One step of the dispatch for-loop: run processEvent on the current
state and append its side effects to the trace accumulated so far. -/
def dispatchStep (acc : Reactor × List Act) (ev : EpollEvent) : Reactor × List Act :=
  let next := processEvent acc.1 ev
  (next.1, acc.2 ++ next.2)

/-- EpollEventLoop::single_loop, with the outcome of the epoll_wait call
supplied by the kernel oracle: on Err(EINTR) return (no events, no error);
on any other Err panic; on Ok, process each reported event in order. The
oracle's ready list is truncated by epollWaitFill, since the kernel can
report at most the 16 slots of the events buffer. -/
def single_loop (r : Reactor) (waitOutcome : Except Errno (List EpollEvent)) :
    LoopResult :=
  match waitOutcome with
  | Except.error e =>
      if e = Errno.EINTR then LoopResult.ok r []
      else LoopResult.panicked epollWaitPanicMsg
  | Except.ok ready =>
      let step := (epollWaitFill ready).foldl dispatchStep (r, [])
      LoopResult.ok step.1 step.2

/-- EventLoop::stop for EpollEventLoop: store true into the stop flag, then
signal the wakeup eventfd. -/
def stop (r : Reactor) : Reactor × List Act :=
  ({ r with stop := true }, [Act.wakeupWrite])

/-- EpollEventLoop::should_stop: load the stop flag. -/
def should_stop (r : Reactor) : Bool :=
  r.stop

/-- Outcome of EpollEventLoop::wakeup, as a function of the result of the
8-byte write to the wakeup eventfd: success and EAGAIN (counter saturated,
a wake is already pending) are silently accepted; any other errno panics. -/
inductive WakeupResult
  | ok
  | panicked
deriving DecidableEq, Repr

/-- EpollEventLoop::wakeup: write the u64 value 1 to the wakeup eventfd;
ignore success and EAGAIN; panic on any other errno. -/
def wakeup (writeResult : Except Errno Nat) : WakeupResult :=
  match writeResult with
  | Except.ok _ => WakeupResult.ok
  | Except.error e =>
      if e = Errno.EAGAIN then WakeupResult.ok
      else WakeupResult.panicked

/-- One iteration's worth of oracle input to run: the value of the stop
flag observed by should_stop at the top of the iteration (other threads may
store to it concurrently), and the epoll_wait outcome for the iteration. -/
structure IterInput where
  stopObserved : Bool
  waitOutcome : Except Errno (List EpollEvent)
deriving DecidableEq, Repr

/-- Outcome of run on a finite oracle: the loop observed the stop flag and
returned after the given number of wait iterations, or it panicked, or the
oracle ran out while the loop was still going. The trace collects every
side effect performed, in order. -/
inductive RunResult
  | stopped (iters : Nat) (trace : List Act)
  | panicked (iters : Nat) (trace : List Act) (msg : String)
  | running (trace : List Act)
deriving DecidableEq, Repr

/-- EventLoop::run for EpollEventLoop: while !should_stop() \x7b
single_loop() \x7d, driven by the per-iteration oracle. -/
def run (r : Reactor) : List IterInput → RunResult
  | [] => RunResult.running []
  | i :: rest =>
      if i.stopObserved then RunResult.stopped 0 []
      else
        match single_loop r i.waitOutcome with
        | LoopResult.panicked m => RunResult.panicked 0 [] m
        | LoopResult.ok r2 acts =>
            match run r2 rest with
            | RunResult.stopped n t => RunResult.stopped (n + 1) (acts ++ t)
            | RunResult.panicked n t m => RunResult.panicked (n + 1) (acts ++ t) m
            | RunResult.running t => RunResult.running (acts ++ t)

/-- Whether an epoll_wait outcome makes single_loop panic: any error other
than EINTR. -/
def fatalWait (waitOutcome : Except Errno (List EpollEvent)) : Bool :=
  match waitOutcome with
  | Except.ok _ => false
  | Except.error e => if e = Errno.EINTR then false else true

/-- EPOLLIN, the read-readiness bit registered for the wakeup eventfd. -/
def EPOLLIN : Nat := 1

/-- The epoll_ctl operations of nix::sys::epoll::EpollOp. -/
inductive EpollOp
  | add
  | modify
  | del
deriving DecidableEq, Repr

/-- One epoll_ctl invocation: the epoll fd, the operation, the target fd,
and the EpollEvent payload (events bitmask and u64 user data). -/
structure EpollCtlCall where
  epfd : Int
  op : EpollOp
  fd : Int
  events : Nat
  data : Nat
deriving DecidableEq, Repr

/-- The kernel oracle for the constructor: results of its three syscalls,
epoll_create (a new fd or an errno), eventfd(0, EFD_NONBLOCK) (a new fd or
an errno), and the single epoll_ctl registration. -/
structure SysOutcomes where
  epoll_create : Except Errno Int
  eventfd : Except Errno Int
  epoll_ctl : Except Errno Unit
deriving DecidableEq, Repr

/-- What the constructor did: its return value, the fds closed by WrappedFd
drops on the way out (in drop order, latest constructed first; empty on
success since the returned reactor owns both fds), and the epoll_ctl calls
attempted. -/
structure NewOutcome where
  result : Except Errno Reactor
  closedFds : List Int
  ctlCalls : List EpollCtlCall
deriving DecidableEq, Repr

/-- new(): create the epoll fd, create the wakeup eventfd, register the
wakeup fd with epoll for EPOLLIN with user data (wakeup_fd as u64), and
build the EpollEventLoop. Each try! returns the errno early, dropping (and
so closing) every WrappedFd constructed up to that point, in reverse
construction order. -/
def new (sys : SysOutcomes) : NewOutcome :=
  match sys.epoll_create with
  | Except.error e => ⟨Except.error e, [], []⟩
  | Except.ok epoll_fd =>
      match sys.eventfd with
      | Except.error e => ⟨Except.error e, [epoll_fd], []⟩
      | Except.ok wakeup_fd =>
          let ctl : EpollCtlCall :=
            ⟨epoll_fd, EpollOp.add, wakeup_fd, EPOLLIN, toU64 wakeup_fd⟩
          match sys.epoll_ctl with
          | Except.error e => ⟨Except.error e, [wakeup_fd, epoll_fd], [ctl]⟩
          | Except.ok _ =>
              ⟨Except.ok ⟨epoll_fd, [], wakeup_fd, false, []⟩, [], [ctl]⟩

/-- The effect of one non-panicking run iteration whose body produced no
side effects: the same outcome with one more wait iteration counted. -/
def skipIter : RunResult → RunResult
  | RunResult.stopped n t => RunResult.stopped (n + 1) t
  | RunResult.panicked n t m => RunResult.panicked (n + 1) t m
  | RunResult.running t => RunResult.running t

/-- A concrete reactor state: epoll fd 3, empty fd table, wakeup fd 4,
stop flag clear, empty queue. -/
def rEx : Reactor := ⟨3, [], 4, false, []⟩

/-- A concrete reactor state whose stop flag is already set. -/
def rStopped : Reactor := ⟨3, [], 4, true, []⟩

/-- A concrete reactor state with descriptor 5 registered in fd_data. -/
def rReg : Reactor := ⟨3, [(5, 1)], 4, false, []⟩

lemma foldl_call_eq (cs q : List Nat) : cs.foldl call q = q ++ cs := by
  induction cs generalizing q with
  | nil => simp
  | cons c cs ih => simp [call, ih]

lemma invokedCalls_append (a b : List Act) :
    invokedCalls (a ++ b) = invokedCalls a ++ invokedCalls b := by
  simp [invokedCalls, List.filterMap_append]

lemma callbackInvocations_append (a b : List Act) :
    callbackInvocations (a ++ b) = callbackInvocations a ++ callbackInvocations b := by
  simp [callbackInvocations, List.filterMap_append]

lemma invokedCalls_handle_wakeup (q : List Nat) :
    invokedCalls (handle_wakeup_fd q) = q := by
  induction q with
  | nil => rfl
  | cons c q ih => simp [handle_wakeup_fd, invokedCalls] at ih ⊢; exact ih

lemma callbackInvocations_handle_wakeup (q : List Nat) :
    callbackInvocations (handle_wakeup_fd q) = [] := by
  induction q with
  | nil => rfl
  | cons c q ih => simp [handle_wakeup_fd, callbackInvocations] at ih ⊢; exact ih

lemma handle_wakeup_trace_shape (q : List Nat) :
    handle_wakeup_fd q = (q.map perItemTrace).flatten ++ emptyQueueTrace := by
  induction q with
  | nil => rfl
  | cons c q ih => simp [handle_wakeup_fd, perItemTrace, ih]

lemma invokesOutsideLock_handle_wakeup (q : List Nat) :
    invokesOutsideLock (handle_wakeup_fd q) false = true := by
  induction q with
  | nil => rfl
  | cons c q ih => simpa [handle_wakeup_fd, invokesOutsideLock] using ih

/-- C3: closures enqueued by call before the reactor drains are executed by
the drain in exactly the order they were enqueued, each exactly once: the
sequence of invoked calls equals the enqueued sequence. -/
theorem scheduled_calls_run_in_fifo_order_exactly_once (cs : List Nat) :
    invokedCalls (handle_wakeup_fd (cs.foldl call [])) = cs := by
  rw [foldl_call_eq]
  simpa using invokedCalls_handle_wakeup cs

/-- C7: the wakeup drain repeatedly locks, pops exactly one call from the
front, unlocks, and invokes the popped call with the lock released; once the
queue is observed empty it reads the wakeup eventfd (consuming the signal
count) and stops. Consequently every call invocation happens outside the
lock, so an invoked call may itself take the queue lock. -/
theorem drain_pops_one_under_lock_invokes_outside (q : List Nat) :
    handle_wakeup_fd q = (q.map perItemTrace).flatten ++ emptyQueueTrace ∧
    invokesOutsideLock (handle_wakeup_fd q) false = true ∧
    (handle_wakeup_fd q).count Act.drainRead = 1 :=
  ⟨handle_wakeup_trace_shape q,
   invokesOutsideLock_handle_wakeup q, by
    rw [handle_wakeup_trace_shape q]
    induction q with
    | nil => rfl
    | cons c q ih =>
        simpa [perItemTrace, List.count_append, List.count_cons] using ih⟩

/-- C1 (defect evidence): the source invokes epoll_wait with timeout
argument 0, which per the epoll contract returns immediately instead of
blocking until a descriptor is ready or a wakeup arrives. -/
theorem epoll_wait_invoked_with_zero_timeout :
    epollWaitTimeoutArg = 0 ∧
    epollTimeoutSemantics epollWaitTimeoutArg = WaitBehavior.returnsImmediately ∧
    epollTimeoutSemantics epollWaitTimeoutArg ≠ WaitBehavior.blocksUntilEvent := by
  refine ⟨rfl, rfl, ?_⟩
  intro h
  simp [epollTimeoutSemantics, epollWaitTimeoutArg] at h

/-- C6: the wakeup signal write treats success and EAGAIN (eventfd counter
saturated, a wake already pending) as fine, raising nothing to the caller;
every other write errno panics. -/
theorem wakeup_tolerates_eagain_else_fatal :
    wakeup (Except.error Errno.EAGAIN) = WakeupResult.ok ∧
    (∀ n : Nat, wakeup (Except.ok n) = WakeupResult.ok) ∧
    (∀ e : Errno, e ≠ Errno.EAGAIN →
      wakeup (Except.error e) = WakeupResult.panicked) := by
  refine ⟨rfl, fun n => rfl, fun e he => ?_⟩
  simp [wakeup, he]

/-- C6 witness: a concrete non-EAGAIN write failure (EINTR) panics. -/
theorem wakeup_tolerates_eagain_else_fatal_witness :
    wakeup (Except.error Errno.EINTR) = WakeupResult.panicked :=
  wakeup_tolerates_eagain_else_fatal.2.2 Errno.EINTR (by decide)

/-- C10: the events buffer passed to epoll_wait holds 16 entries, the kernel
fills at most that many per iteration, and ready descriptors beyond the
first 16 have no effect on the iteration (they are deferred). -/
theorem at_most_sixteen_events_per_iteration :
    eventsBufferSize = 16 ∧
    (∀ ready : List EpollEvent, (epollWaitFill ready).length ≤ eventsBufferSize) ∧
    (∀ (r : Reactor) (ready : List EpollEvent),
      single_loop r (Except.ok ready) =
        single_loop r (Except.ok (ready.take eventsBufferSize))) := by
  refine ⟨rfl, fun ready => ?_, fun r ready => ?_⟩
  · simp [epollWaitFill]
  · simp [single_loop, epollWaitFill, List.take_take]

lemma processEvent_fields (r : Reactor) (ev : EpollEvent) :
    callbackInvocations (processEvent r ev).2 = [] ∧
    (processEvent r ev).1.fd_data = r.fd_data ∧
    (processEvent r ev).1.stop = r.stop ∧
    (processEvent r ev).1.epoll_fd = r.epoll_fd ∧
    (processEvent r ev).1.wakeup_fd = r.wakeup_fd := by
  unfold processEvent
  dsimp only
  by_cases h : toCInt ev.data = r.wakeup_fd
  · rw [if_pos h]
    exact ⟨callbackInvocations_handle_wakeup _, rfl, rfl, rfl, rfl⟩
  · rw [if_neg h]
    exact ⟨rfl, rfl, rfl, rfl, rfl⟩

lemma dispatch_fold_invariant (events : List EpollEvent) (r : Reactor)
    (acts : List Act) :
    callbackInvocations (events.foldl dispatchStep (r, acts)).2 =
      callbackInvocations acts ∧
    (events.foldl dispatchStep (r, acts)).1.fd_data = r.fd_data ∧
    (events.foldl dispatchStep (r, acts)).1.stop = r.stop ∧
    (events.foldl dispatchStep (r, acts)).1.epoll_fd = r.epoll_fd ∧
    (events.foldl dispatchStep (r, acts)).1.wakeup_fd = r.wakeup_fd := by
  induction events generalizing r acts with
  | nil => simp
  | cons ev events ih =>
      obtain ⟨h1, h2, h3, h4, h5⟩ := processEvent_fields r ev
      obtain ⟨g1, g2, g3, g4, g5⟩ :=
        ih (processEvent r ev).1 (acts ++ (processEvent r ev).2)
      have step : dispatchStep (r, acts) ev =
          ((processEvent r ev).1, acts ++ (processEvent r ev).2) := rfl
      simp only [List.foldl_cons, step]
      refine ⟨?_, by rw [g2, h2], by rw [g3, h3], by rw [g4, h4], by rw [g5, h5]⟩
      rw [g1, callbackInvocations_append, h1, List.append_nil]

/-- C2 (defect evidence): single_loop never invokes a registered callback
and never consults fd_data, whatever the kernel reports: the non-wakeup
branch of the dispatch for-loop is empty, so every ready descriptor other
than the wakeup eventfd is dropped even when fd_data has an entry for it. -/
theorem single_loop_never_invokes_registered_callbacks
    (r r2 : Reactor) (waitOutcome : Except Errno (List EpollEvent))
    (acts : List Act)
    (h : single_loop r waitOutcome = LoopResult.ok r2 acts) :
    callbackInvocations acts = [] ∧ r2.fd_data = r.fd_data := by
  cases waitOutcome with
  | error e =>
      by_cases he : e = Errno.EINTR
      · subst he
        simp only [single_loop, if_pos rfl] at h
        cases h
        exact ⟨rfl, rfl⟩
      · simp [single_loop, he] at h
  | ok ready =>
      obtain ⟨g1, g2, _, _, _⟩ :=
        dispatch_fold_invariant (epollWaitFill ready) r []
      simp only [single_loop] at h
      cases h
      exact ⟨g1, g2⟩

/-- C2 witness: descriptor 5 is registered in fd_data and reported ready,
yet the iteration performs no callback invocation at all. -/
theorem single_loop_never_invokes_registered_callbacks_witness :
    callbackInvocations [] = [] ∧ rReg.fd_data = rReg.fd_data :=
  single_loop_never_invokes_registered_callbacks rReg rReg
    (Except.ok [⟨EPOLLIN, 5⟩]) [] (by decide)

/-- C4: an EINTR from epoll_wait is swallowed: the iteration returns with
the state unchanged and no side effects, and run proceeds to the next
iteration, re-checking the stop flag; any other epoll_wait errno panics,
terminating the loop at once. -/
theorem eintr_treated_as_no_events_other_errors_fatal :
    (∀ r : Reactor,
      single_loop r (Except.error Errno.EINTR) = LoopResult.ok r []) ∧
    (∀ (r : Reactor) (rest : List IterInput),
      run r (⟨false, Except.error Errno.EINTR⟩ :: rest) = skipIter (run r rest)) ∧
    (∀ (r : Reactor) (e : Errno), e ≠ Errno.EINTR →
      single_loop r (Except.error e) = LoopResult.panicked epollWaitPanicMsg) ∧
    (∀ (r : Reactor) (rest : List IterInput) (e : Errno), e ≠ Errno.EINTR →
      run r (⟨false, Except.error e⟩ :: rest) =
        RunResult.panicked 0 [] epollWaitPanicMsg) := by
  refine ⟨fun r => rfl, fun r rest => ?_, fun r e he => ?_, fun r rest e he => ?_⟩
  · cases h : run r rest <;> simp [run, single_loop, skipIter, h]
  · simp [single_loop, he]
  · simp [run, single_loop, he]

/-- C4 witness: a concrete non-EINTR epoll_wait failure makes the iteration
panic and makes run terminate with that panic. -/
theorem eintr_treated_as_no_events_other_errors_fatal_witness :
    single_loop rEx (Except.error (Errno.other 5)) =
      LoopResult.panicked epollWaitPanicMsg ∧
    run rEx [⟨false, Except.error (Errno.other 5)⟩] =
      RunResult.panicked 0 [] epollWaitPanicMsg :=
  ⟨eintr_treated_as_no_events_other_errors_fatal.2.2.1 rEx (Errno.other 5)
      (by decide),
   eintr_treated_as_no_events_other_errors_fatal.2.2.2 rEx [] (Errno.other 5)
      (by decide)⟩

lemma single_loop_ok_of_nonfatal (r : Reactor)
    (waitOutcome : Except Errno (List EpollEvent))
    (h : fatalWait waitOutcome = false) :
    ∃ r2 acts, single_loop r waitOutcome = LoopResult.ok r2 acts := by
  cases waitOutcome with
  | ok ready => exact ⟨_, _, rfl⟩
  | error e =>
      by_cases he : e = Errno.EINTR
      · subst he
        exact ⟨r, [], rfl⟩
      · simp [fatalWait, he] at h

lemma run_stops_at_first_true_flag (pre : List IterInput) (r : Reactor)
    (i : IterInput) (rest : List IterInput)
    (hpre : ∀ j ∈ pre, j.stopObserved = false ∧ fatalWait j.waitOutcome = false)
    (hi : i.stopObserved = true) :
    ∃ t, run r (pre ++ i :: rest) = RunResult.stopped pre.length t := by
  induction pre generalizing r with
  | nil => exact ⟨[], by simp [run, hi]⟩
  | cons j pre ih =>
      obtain ⟨hj, hfat⟩ := hpre j (List.mem_cons_self j pre)
      obtain ⟨r2, acts, hsl⟩ := single_loop_ok_of_nonfatal r j.waitOutcome hfat
      obtain ⟨t, ht⟩ := ih r2 fun k hk => hpre k (List.mem_cons_of_mem j hk)
      refine ⟨acts ++ t, ?_⟩
      simp [run, hj, hsl, ht]

/-- C5: stop stores true into the flag and signals the wakeup eventfd, a
second stop leaves the state exactly as after the first, the loop body never
clears the flag, a run whose first should_stop load sees the already-set
flag returns after zero wait iterations, and run returns (counting the
preceding wait iterations) as soon as an iteration observes the flag true
at its top. -/
theorem stop_idempotent_and_run_observes_flag :
    (∀ r : Reactor, (stop r).1.stop = true) ∧
    (∀ r : Reactor, (stop (stop r).1).1 = (stop r).1) ∧
    (∀ r : Reactor, (stop r).2 = [Act.wakeupWrite]) ∧
    (∀ (r r2 : Reactor) (waitOutcome : Except Errno (List EpollEvent))
        (acts : List Act),
      single_loop r waitOutcome = LoopResult.ok r2 acts → r2.stop = r.stop) ∧
    (∀ (r : Reactor) (i : IterInput) (rest : List IterInput),
      should_stop r = true → i.stopObserved = should_stop r →
      run r (i :: rest) = RunResult.stopped 0 []) ∧
    (∀ (pre : List IterInput) (r : Reactor) (i : IterInput)
        (rest : List IterInput),
      (∀ j ∈ pre, j.stopObserved = false ∧ fatalWait j.waitOutcome = false) →
      i.stopObserved = true →
      ∃ t, run r (pre ++ i :: rest) = RunResult.stopped pre.length t) := by
  refine ⟨fun r => rfl, fun r => rfl, fun r => rfl, ?_, ?_, ?_⟩
  · intro r r2 waitOutcome acts h
    cases waitOutcome with
    | error e =>
        by_cases he : e = Errno.EINTR
        · subst he
          simp only [single_loop, if_pos rfl] at h
          cases h
          rfl
        · simp [single_loop, he] at h
    | ok ready =>
        obtain ⟨_, _, g3, _, _⟩ := dispatch_fold_invariant (epollWaitFill ready) r []
        simp only [single_loop] at h
        cases h
        exact g3
  · intro r i rest hstop hobs
    rw [hstop] at hobs
    simp [run, hobs]
  · exact fun pre r i rest hpre hi => run_stops_at_first_true_flag pre r i rest hpre hi

/-- C5 witness: a concrete reactor and oracle discharging each hypothesis:
the loop body preserves the flag on an EINTR iteration, a run whose first
load sees the set flag stops at once, and a run stops at the first true
observation. -/
theorem stop_idempotent_and_run_observes_flag_witness :
    rEx.stop = rEx.stop ∧
    run rStopped [⟨true, Except.ok []⟩] = RunResult.stopped 0 [] ∧
    ∃ t, run rEx ([] ++ ⟨true, Except.ok []⟩ :: []) =
      RunResult.stopped (List.length ([] : List IterInput)) t :=
  ⟨stop_idempotent_and_run_observes_flag.2.2.2.1 rEx rEx
      (Except.error Errno.EINTR) [] (by decide),
   stop_idempotent_and_run_observes_flag.2.2.2.2.1 rStopped
      ⟨true, Except.ok []⟩ [] rfl rfl,
   stop_idempotent_and_run_observes_flag.2.2.2.2.2 [] rEx
      ⟨true, Except.ok []⟩ [] (fun j hj => absurd hj (List.not_mem_nil j)) rfl⟩

lemma toCInt_toU64 (w : Int) (h0 : 0 ≤ w) (h1 : w < 2 ^ 31) :
    toCInt (toU64 w) = w := by
  unfold toU64 toCInt
  dsimp only
  have e64 : (0 : Int) ≤ w ∧ w < (2 : Int) ^ 64 := ⟨h0, by omega⟩
  rw [Int.emod_eq_of_lt e64.1 e64.2]
  have hlt : w.toNat % 2 ^ 32 < 2 ^ 31 := by omega
  rw [if_pos hlt]
  omega

/-- C8: each failing syscall in new makes the constructor return that errno
to its caller, with every WrappedFd constructed before the failure dropped
and hence its descriptor closed: nothing on epoll_create failure, the epoll
fd on eventfd failure, and both fds on epoll_ctl failure; on success
nothing is closed, the returned reactor owning both descriptors. -/
theorem new_reports_errno_and_closes_acquired_fds (sys : SysOutcomes) :
    (∀ e, sys.epoll_create = Except.error e →
      new sys = ⟨Except.error e, [], []⟩) ∧
    (∀ efd e, sys.epoll_create = Except.ok efd →
      sys.eventfd = Except.error e →
      new sys = ⟨Except.error e, [efd], []⟩) ∧
    (∀ efd wfd e, sys.epoll_create = Except.ok efd →
      sys.eventfd = Except.ok wfd →
      sys.epoll_ctl = Except.error e →
      new sys = ⟨Except.error e, [wfd, efd],
        [⟨efd, EpollOp.add, wfd, EPOLLIN, toU64 wfd⟩]⟩) ∧
    (∀ efd wfd, sys.epoll_create = Except.ok efd →
      sys.eventfd = Except.ok wfd →
      sys.epoll_ctl = Except.ok () →
      (new sys).closedFds = [] ∧
        (new sys).result = Except.ok ⟨efd, [], wfd, false, []⟩) := by
  refine ⟨fun e h => ?_, fun efd e h1 h2 => ?_, fun efd wfd e h1 h2 h3 => ?_,
    fun efd wfd h1 h2 h3 => ?_⟩
  · simp [new, h]
  · simp [new, h1, h2]
  · simp [new, h1, h2, h3]
  · simp [new, h1, h2, h3]

/-- C8 witness: three concrete failing oracles and one succeeding one. -/
theorem new_reports_errno_and_closes_acquired_fds_witness :
    new ⟨Except.error (Errno.other 24), Except.ok 4, Except.ok ()⟩ =
      ⟨Except.error (Errno.other 24), [], []⟩ ∧
    new ⟨Except.ok 3, Except.error (Errno.other 24), Except.ok ()⟩ =
      ⟨Except.error (Errno.other 24), [3], []⟩ ∧
    new ⟨Except.ok 3, Except.ok 4, Except.error (Errno.other 12)⟩ =
      ⟨Except.error (Errno.other 12), [4, 3],
        [⟨3, EpollOp.add, 4, EPOLLIN, toU64 4⟩]⟩ ∧
    ((new ⟨Except.ok 3, Except.ok 4, Except.ok ()⟩).closedFds = [] ∧
      (new ⟨Except.ok 3, Except.ok 4, Except.ok ()⟩).result =
        Except.ok ⟨3, [], 4, false, []⟩) :=
  ⟨(new_reports_errno_and_closes_acquired_fds _).1 (Errno.other 24) rfl,
   (new_reports_errno_and_closes_acquired_fds _).2.1 3 (Errno.other 24) rfl rfl,
   (new_reports_errno_and_closes_acquired_fds _).2.2.1 3 4 (Errno.other 12)
      rfl rfl rfl,
   (new_reports_errno_and_closes_acquired_fds _).2.2.2 3 4 rfl rfl rfl⟩

/-- C9: a successful constructor performs exactly one epoll_ctl, an
EpollCtlAdd of the wakeup eventfd with events = EPOLLIN and user data =
wakeup_fd as u64; and for any valid descriptor value the dispatch loop gets
that data back, casts it to c_int, recognizes it as the wakeup fd, and takes
the wakeup branch. -/
theorem wakeup_fd_registered_epollin_data_is_own_fd (sys : SysOutcomes)
    (efd wfd : Int) :
    (sys.epoll_create = Except.ok efd → sys.eventfd = Except.ok wfd →
      sys.epoll_ctl = Except.ok () →
      (new sys).ctlCalls = [⟨efd, EpollOp.add, wfd, EPOLLIN, toU64 wfd⟩] ∧
        (new sys).result = Except.ok ⟨efd, [], wfd, false, []⟩) ∧
    (∀ (r : Reactor) (ev : EpollEvent), 0 ≤ r.wakeup_fd →
      r.wakeup_fd < 2 ^ 31 → ev.data = toU64 r.wakeup_fd →
      processEvent r ev =
        ({ r with pending_calls := [] }, handle_wakeup_fd r.pending_calls)) := by
  constructor
  · intro h1 h2 h3
    simp [new, h1, h2, h3]
  · intro r ev hnn hlt hdata
    have : toCInt ev.data = r.wakeup_fd := by
      rw [hdata]
      exact toCInt_toU64 r.wakeup_fd hnn hlt
    simp [processEvent, this]

/-- C9 witness: the successful oracle registers fd 4 with EPOLLIN and data
4, and an event carrying that data is dispatched to the wakeup handler. -/
theorem wakeup_fd_registered_epollin_data_is_own_fd_witness :
    ((new ⟨Except.ok 3, Except.ok 4, Except.ok ()⟩).ctlCalls =
        [⟨3, EpollOp.add, 4, EPOLLIN, toU64 4⟩] ∧
      (new ⟨Except.ok 3, Except.ok 4, Except.ok ()⟩).result =
        Except.ok ⟨3, [], 4, false, []⟩) ∧
    processEvent rEx ⟨EPOLLIN, toU64 rEx.wakeup_fd⟩ =
      ({ rEx with pending_calls := [] }, handle_wakeup_fd rEx.pending_calls) :=
  ⟨(wakeup_fd_registered_epollin_data_is_own_fd
      ⟨Except.ok 3, Except.ok 4, Except.ok ()⟩ 3 4).1 rfl rfl rfl,
   (wakeup_fd_registered_epollin_data_is_own_fd
      ⟨Except.ok 3, Except.ok 4, Except.ok ()⟩ 3 4).2 rEx
      ⟨EPOLLIN, toU64 rEx.wakeup_fd⟩ (by decide) (by decide) rfl⟩
